import Mathlib

/-!
# Verification of the FoodNearBy-MCP location/POI aggregation engine

Shallow embedding of the repository's core services:

* `src/services/locationService.ts` — coordinate parsing, geocoding fallback,
  region detection, `getCoordinates`;
* `src/services/mapPoiService.ts` — search-strategy classification,
  multi-provider fan-out, deduplication/merge, sorting and filters;
* `src/services/amapLocationService.ts` — blended planar/haversine distance.

Modelling conventions:

* JavaScript numbers are modelled as exact rationals (`ℚ`) in the service
  layer (parsing, ratings, dedup tolerances) and as reals (`ℝ`) in the
  trigonometric coordinate math; IEEE-754 rounding is not modelled.
* Strings are Lean `String`s; character-level work happens on `List Char`.
* Provider HTTP calls are abstracted as environment fields of type
  `Except String _` holding the outcome the corresponding request/normalisation
  step would produce; the services' own control flow (key checks,
  `try`/`catch`, priority order, merging) is translated faithfully.
* `parseFloat` is modelled without the exponent/`Infinity` forms, which the
  coordinate grammar of this code base never produces.
-/

/-! ## Character classes

`isWsChar` models the JavaScript `\s` class / `String.prototype.trim`
whitespace set (ECMA-262 WhiteSpace ∪ LineTerminator).  `isDigitC` models the
regex class `\d` (ASCII digits only). -/

def isWsChar (c : Char) : Bool :=
  let n := c.toNat
  n == 9 || n == 10 || n == 11 || n == 12 || n == 13 || n == 32 ||
  n == 160 || n == 5760 || n == 8192 || n == 8193 || n == 8194 ||
  n == 8195 || n == 8196 || n == 8197 || n == 8198 || n == 8199 ||
  n == 8200 || n == 8201 || n == 8202 || n == 8232 || n == 8233 ||
  n == 8239 || n == 8287 || n == 12288 || n == 65279

def isDigitC (c : Char) : Bool :=
  48 ≤ c.toNat && c.toNat ≤ 57

/-- Characters that can occur inside a number matched by `-?\d+\.?\d*`. -/
def isNumChar (c : Char) : Bool :=
  isDigitC c || c == '-' || c == '.'

theorem isNumChar_not_ws {c : Char} (h : isNumChar c = true) : isWsChar c = false := by
  by_cases hd : isDigitC c = true
  · have h1 : 48 ≤ c.toNat ∧ c.toNat ≤ 57 := by simpa [isDigitC] using hd
    simp only [isWsChar, Bool.or_eq_false_iff, beq_eq_false_iff_ne, ne_eq]
    omega
  · have h2 : c = '-' ∨ c = '.' := by
      simp only [isNumChar, Bool.or_eq_true, beq_iff_eq] at h
      tauto
    rcases h2 with rfl | rfl <;> decide

theorem isNumChar_ne_comma {c : Char} (h : isNumChar c = true) : c ≠ ',' := by
  intro hc
  subst hc
  simp [isNumChar, isDigitC] at h

theorem isWsChar_ne_comma {c : Char} (h : isWsChar c = true) : c ≠ ',' := by
  intro hc
  subst hc
  simp [isWsChar] at h

/-! ## Generic list helpers -/

/-- Taking while over a list all of whose elements satisfy `p`. -/
theorem takeWhile_all {p : Char → Bool} :
    ∀ {a : List Char}, (∀ x ∈ a, p x = true) →
      a.takeWhile p = a ∧ a.dropWhile p = []
  | [], _ => by simp
  | x :: xs, h => by
    have hx : p x = true := h x (by simp)
    have ih := takeWhile_all (p := p) (a := xs) (fun y hy => h y (by simp [hy]))
    simp [List.takeWhile, List.dropWhile, hx, ih.1, ih.2]

/-- Splitting a good block followed by a failing head. -/
theorem takeWhile_append_not {p : Char → Bool} {c : Char} {b : List Char} :
    ∀ {a : List Char}, (∀ x ∈ a, p x = true) → p c = false →
      (a ++ c :: b).takeWhile p = a ∧ (a ++ c :: b).dropWhile p = c :: b
  | [], _, hc => by simp [List.takeWhile, List.dropWhile, hc]
  | x :: xs, h, hc => by
    have hx : p x = true := h x (by simp)
    have ih := takeWhile_append_not (p := p) (c := c) (b := b) (a := xs)
      (fun y hy => h y (by simp [hy])) hc
    simp [List.takeWhile, List.dropWhile, hx, ih.1, ih.2]

theorem dropWhile_head_not {p : Char → Bool} {x : Char} {xs : List Char}
    (hx : p x = false) : (x :: xs).dropWhile p = x :: xs := by
  simp [List.dropWhile, hx]

/-- Substring test, as JavaScript `String.prototype.includes` on char lists. -/
def hasInfix : List Char → List Char → Bool
  | [], pat => pat.isEmpty
  | c :: t, pat => pat.isPrefixOf (c :: t) || hasInfix t pat

theorem isPrefixOf_mem {x : Char} :
    ∀ {a b : List Char}, a.isPrefixOf b = true → x ∈ a → x ∈ b
  | [], _, _, hx => by simp at hx
  | _ :: _, [], h, _ => by simp [List.isPrefixOf] at h
  | a :: as, b :: bs, h, hx => by
    simp only [List.isPrefixOf, Bool.and_eq_true, beq_iff_eq] at h
    rcases List.mem_cons.mp hx with rfl | hx2
    · simp [h.1]
    · exact List.mem_cons_of_mem b (isPrefixOf_mem h.2 hx2)

theorem hasInfix_mem {x : Char} :
    ∀ {s pat : List Char}, hasInfix s pat = true → x ∈ pat → x ∈ s
  | [], pat, h, hx => by
    simp [hasInfix, List.isEmpty_iff] at h
    subst h; simp at hx
  | c :: t, pat, h, hx => by
    simp only [hasInfix, Bool.or_eq_true] at h
    rcases h with h | h
    · exact isPrefixOf_mem h hx
    · exact List.mem_cons_of_mem c (hasInfix_mem h hx)

/-- JavaScript `"...".split(',')`: splits on every comma, never drops pieces. -/
def splitOnComma : List Char → List (List Char)
  | [] => [[]]
  | c :: t =>
    if c = ',' then [] :: splitOnComma t
    else
      match splitOnComma t with
      | [] => [[c]]
      | p :: ps => (c :: p) :: ps

theorem splitOnComma_no_comma :
    ∀ {b : List Char}, (∀ c ∈ b, c ≠ ',') → splitOnComma b = [b]
  | [], _ => rfl
  | c :: t, h => by
    have hc : c ≠ ',' := h c (by simp)
    have ih := splitOnComma_no_comma (b := t) (fun y hy => h y (by simp [hy]))
    simp [splitOnComma, hc, ih]

theorem splitOnComma_append {b : List Char} :
    ∀ {a : List Char}, (∀ c ∈ a, c ≠ ',') →
      splitOnComma (a ++ ',' :: b) = a :: splitOnComma b
  | [], _ => by simp [splitOnComma]
  | x :: xs, h => by
    have hx : x ≠ ',' := h x (by simp)
    have ih := splitOnComma_append (b := b) (a := xs) (fun y hy => h y (by simp [hy]))
    simp [splitOnComma, hx, ih]

/-- JavaScript `String.prototype.trim` on a char list. -/
def trimList (l : List Char) : List Char :=
  ((l.dropWhile isWsChar).reverse.dropWhile isWsChar).reverse

/-- Trimming a block of whitespace followed by non-whitespace text. -/
theorem trimList_ws_append {w a : List Char} (hw : ∀ c ∈ w, isWsChar c = true)
    (ha : ∀ c ∈ a, isWsChar c = false) (hne : a ≠ []) :
    trimList (w ++ a) = a := by
  unfold trimList
  obtain ⟨y, ys, rfl⟩ := List.exists_cons_of_ne_nil hne
  have h1 : (w ++ y :: ys).dropWhile isWsChar = y :: ys :=
    (takeWhile_append_not hw (ha y (by simp))).2
  rw [h1]
  rcases hr : (y :: ys).reverse with _ | ⟨z, zs⟩
  · simp at hr
  · have hz : isWsChar z = false := by
      apply ha
      have hzmem : z ∈ (y :: ys).reverse := by rw [hr]; exact List.mem_cons_self _ _
      exact List.mem_reverse.mp hzmem
    rw [dropWhile_head_not hz, ← hr, List.reverse_reverse]

/-! ## Number parsing (`parseFloat` and the coordinate regex) -/

/-- Value of a digit run, most significant first. -/
def digitsVal (ds : List Char) : ℕ :=
  ds.foldl (fun acc c => 10 * acc + (c.toNat - 48)) 0

/-- Rational value of a sign/integer-digits/fraction-digits decomposition. -/
def numValue (neg : Bool) (ints fracs : List Char) : ℚ :=
  let v : ℚ := (digitsVal ints : ℚ) + (digitsVal fracs : ℚ) / (10 : ℚ) ^ fracs.length
  if neg then -v else v

/-- Unsigned part of the coordinate-regex number `\d+\.?\d*`: at least one
integer digit, then an optional dot with optional fraction digits. -/
def numTail (neg : Bool) (l1 : List Char) : Option (ℚ × List Char) :=
  let ints := l1.takeWhile isDigitC
  let r1 := l1.dropWhile isDigitC
  if ints = [] then none
  else if r1.head? = some '.' then
    some (numValue neg ints (r1.tail.takeWhile isDigitC), r1.tail.dropWhile isDigitC)
  else some (numValue neg ints [], r1)

/-- Maximal-munch matcher for the number part `-?\d+\.?\d*` of the coordinate
regex in `locationService.isCoordinateFormat`.  Returns the parsed value and
the unconsumed rest.  (Greedy matching is equivalent to the regex here: after
the greedy `\d+`, neither `\.?` nor `\d*` can consume a digit boundary
differently.) -/
def numCore (l : List Char) : Option (ℚ × List Char) :=
  if l.head? = some '-' then numTail true l.tail else numTail false l

/-- Unsigned part of a `parseFloat` number `\d+(\.\d*)?|\.\d+`: digits are
required on at least one side of the dot. -/
def jsNumTail (neg : Bool) (l1 : List Char) : Option (ℚ × List Char) :=
  let ints := l1.takeWhile isDigitC
  let r1 := l1.dropWhile isDigitC
  if r1.head? = some '.' then
    if ints = [] ∧ r1.tail.takeWhile isDigitC = [] then none
    else some (numValue neg ints (r1.tail.takeWhile isDigitC), r1.tail.dropWhile isDigitC)
  else if ints = [] then none
  else some (numValue neg ints [], r1)

/-- Number prefix accepted by JavaScript `parseFloat` (no exponent form):
`[+-]?(\d+(\.\d*)?|\.\d+)`. -/
def jsNumCore (l : List Char) : Option (ℚ × List Char) :=
  if l.head? = some '-' then jsNumTail true l.tail
  else if l.head? = some '+' then jsNumTail false l.tail
  else jsNumTail false l

/-- JavaScript `parseFloat` on a char list: skip leading whitespace, parse the
longest numeric prefix, ignore the rest; `none` models `NaN`. -/
def jsParseFloat (l : List Char) : Option ℚ :=
  (jsNumCore (l.dropWhile isWsChar)).map Prod.fst

/-- Matcher for the whole coordinate regex
`/^-?\d+\.?\d*,\s*-?\d+\.?\d*$/` of `locationService.isCoordinateFormat`,
returning the two parsed numbers (first → lat, second → lng). -/
def coordMatch (l : List Char) : Option (ℚ × ℚ) :=
  match numCore l with
  | none => none
  | some (q1, rest) =>
    if rest.head? = some ',' then
      match numCore (rest.tail.dropWhile isWsChar) with
      | some (q2, r) => if r = [] then some (q1, q2) else none
      | none => none
    else none

/-- The test `locationService.isCoordinateFormat`. -/
def isCoordinateFormat (s : String) : Bool :=
  (coordMatch s.toList).isSome

/-! ## Coordinates and `parseCoordinate` (`locationService.ts`) -/

/-- The `Coordinates` interface from `locationService.ts`, with JS numbers as exact
rationals. -/
structure Coordinates where
  lat : ℚ
  lng : ℚ
deriving DecidableEq, Repr

/-- The constant `LocationService.DEFAULT_COORDINATES` (Tiananmen, Beijing). -/
def DEFAULT_COORDINATES : Coordinates := ⟨39.9042, 116.4074⟩

/-- The parser `locationService.parseCoordinate`:
`coordinate.split(',').map(c => parseFloat(c.trim()))`, then
`parts[0] || 0` / `parts[1] || 0` (`NaN`, a missing part, and `0` itself all
yield `0`, so the `|| 0` collapses to the `none → 0` default here). -/
def parseCoordinate (s : String) : Coordinates :=
  let parts := (splitOnComma s.toList).map (fun p => jsParseFloat (trimList p))
  let lat : ℚ := match parts[0]? with | some (some q) => q | _ => 0
  let lng : ℚ := match parts[1]? with | some (some q) => q | _ => 0
  ⟨lat, lng⟩

/-! ## Geocoding and `getCoordinates` (`locationService.ts`)

Provider HTTP calls are abstracted into an environment: each field holds the
outcome the corresponding provider call (`geocodeWithBaidu`, `geocodeWithAmap`,
`AmapLocationService.getCurrentLocationByIp`) would produce — `.ok` on a
successful parse of the provider response, `.error` where the TypeScript
throws. -/

structure GeoEnv where
  baiduKey : Bool
  amapKey : Bool
  baiduGeocode : String → Except String Coordinates
  amapGeocode : String → Except String Coordinates
  amapIpLocate : Except String Coordinates

/-- The resolver `locationService.geocodeAddress`: inside one `try`, use Baidu when its key
is configured, otherwise Amap when its key is configured, otherwise throw;
the surrounding `catch` turns every failure into `DEFAULT_COORDINATES`. -/
def geocodeAddress (env : GeoEnv) (address : String) : Coordinates :=
  let attempt : Except String Coordinates :=
    if env.baiduKey then env.baiduGeocode address
    else if env.amapKey then env.amapGeocode address
    else .error "未配置地图API密钥"
  match attempt with
  | .ok c => c
  | .error _ => DEFAULT_COORDINATES

/-- The entry point `locationService.getCoordinates`. -/
def getCoordinates (env : GeoEnv) (location : String) : Coordinates :=
  if isCoordinateFormat location then parseCoordinate location
  else if location = "当前位置" ∨ location = "current location" then DEFAULT_COORDINATES
  else geocodeAddress env location

/-- Modelled from the spec (§4.3 step 3), as the reference point for the
resolver claim: call each configured provider's geocode in priority order
(Baidu, then Amap), return the first success, and fail with a
`ResolutionError` (modelled as `.error ()`) when every configured provider
fails or none is configured. -/
def specGeocodeResolve (env : GeoEnv) (address : String) : Except Unit Coordinates :=
  match (if env.baiduKey then (env.baiduGeocode address).toOption else none) with
  | some c => .ok c
  | none =>
    match (if env.amapKey then (env.amapGeocode address).toOption else none) with
    | some c => .ok c
    | none => .error ()

/-- Modelled from the spec (§4.3 step 2), as the reference point for the
sentinel claim: resolve the current-location sentinel through the IP-locate
capability of the first provider that has one configured (only the Amap
provider has `getCurrentLocationByIp` in the source), failing with a
`ResolutionError` when IP location fails or no such provider is configured. -/
def specSentinelResolve (env : GeoEnv) : Except Unit Coordinates :=
  if env.amapKey then
    match env.amapIpLocate with
    | .ok c => .ok c
    | .error _ => .error ()
  else .error ()

/-! ## Search-strategy classification (`mapPoiService.determineSearchStrategy`) -/

inductive SearchStrategy where
  | region
  | coordinate
  | mixed
deriving DecidableEq, Repr

/-- The constant `REGION_KEYWORDS` (identical in every revision of the sources). -/
def REGION_KEYWORDS : List String := ["市", "县", "区", "省", "自治区", "特别行政区"]

/-- The test `isRegionSearch`: some region keyword occurs in the location
(`location.includes(keyword)`). -/
def isRegionSearch (s : String) : Bool :=
  REGION_KEYWORDS.any (fun k => hasInfix s.toList k.toList)

/-- The classifier `mapPoiService.determineSearchStrategy`, in the source's check order:
region keywords, then coordinate format, then the current-location
sentinel, else mixed. -/
def determineSearchStrategy (location : String) : SearchStrategy :=
  if isRegionSearch location then .region
  else if isCoordinateFormat location then .coordinate
  else if location = "当前位置" ∨ location = "current location" then .coordinate
  else .mixed

/-- The classifier as the spec describes it (§4.4): coordinate-format and
sentinel checks take precedence over the region-keyword check. -/
def classifySpec (location : String) : SearchStrategy :=
  if isCoordinateFormat location ∨ location = "当前位置" ∨ location = "current location" then
    .coordinate
  else if isRegionSearch location then .region
  else .mixed

/-! ## Canonical restaurant records and `deduplicateAndSort`
(`mapPoiService.ts`) -/

/-- The `Restaurant` interface of `mapPoiService.ts`.  `distance` is declared
`number` in TypeScript but treated defensively as possibly absent
(`restaurant.distance || 0`) by the sort and the distance filter, so it is
modelled as `Option ℚ` with `none` = missing. -/
structure Restaurant where
  id : String := ""
  name : String := ""
  address : String := ""
  location : Coordinates := ⟨0, 0⟩
  rating : ℚ := 0
  review_count : ℕ := 0
  phone : String := ""
  opening_hours : String := ""
  price_range : String := ""
  cuisine_type : String := ""
  distance : Option ℚ := none
  image : String := ""
  platforms : List String := []
  source : String := ""
  tags : List String := []
deriving DecidableEq, Repr

/-- The duplicate test of `deduplicateAndSort`: identical name and both
coordinate deltas strictly below `0.001`. -/
def samePlace (item current : Restaurant) : Bool :=
  item.name = current.name ∧
  |item.location.lat - current.location.lat| < 0.001 ∧
  |item.location.lng - current.location.lng| < 0.001

/-- Duplicate removal keeping the first occurrence of each element, in
insertion order. -/
def jsSetDedupGo (seen : List String) : List String → List String
  | [] => []
  | x :: xs => if x ∈ seen then jsSetDedupGo seen xs else x :: jsSetDedupGo (x :: seen) xs

/-- The platform union `[...new Set([...a, ...b])]`: concatenation with
duplicates removed, keeping the first occurrence (JS `Set` iterates in
insertion order). -/
def jsSetUnion (a b : List String) : List String :=
  jsSetDedupGo [] (a ++ b)

/-- The collision branch of `deduplicateAndSort`: first union the platform
lists into the kept record, then — only when the incoming rating is strictly
greater — `Object.assign(existing, current)` replaces every field (platforms
included) with the incoming record's. -/
def mergeRecords (existing current : Restaurant) : Restaurant :=
  let withUnion := { existing with
    platforms := jsSetUnion existing.platforms current.platforms }
  if existing.rating < current.rating then current else withUnion

/-- One step of the `reduce`: find the first record in the accumulator that is
the same place; merge into it in place, or push the incoming record at the
end. -/
def insertMerge : List Restaurant → Restaurant → List Restaurant
  | [], current => [current]
  | item :: rest, current =>
    if samePlace item current then mergeRecords item current :: rest
    else item :: insertMerge rest current

/-- The sort comparator of `deduplicateAndSort` as a relation: `a` may come
before `b` iff `a`'s rating is higher, or ratings are equal and `a`'s
distance (missing treated as `0`) is not larger. -/
def restaurantLE (a b : Restaurant) : Prop :=
  b.rating < a.rating ∨ (a.rating = b.rating ∧ a.distance.getD 0 ≤ b.distance.getD 0)

instance : DecidableRel restaurantLE := fun a b => by
  unfold restaurantLE; infer_instance

instance : IsTotal Restaurant restaurantLE where
  total a b := by
    unfold restaurantLE
    rcases lt_trichotomy a.rating b.rating with h | h | h
    · exact Or.inr (Or.inl h)
    · rcases le_total (a.distance.getD 0) (b.distance.getD 0) with hd | hd
      · exact Or.inl (Or.inr ⟨h, hd⟩)
      · exact Or.inr (Or.inr ⟨h.symm, hd⟩)
    · exact Or.inl (Or.inl h)

instance : IsTrans Restaurant restaurantLE where
  trans a b c hab hbc := by
    unfold restaurantLE at *
    rcases hab with h1 | ⟨h1, d1⟩ <;> rcases hbc with h2 | ⟨h2, d2⟩
    · exact Or.inl (h2.trans h1)
    · exact Or.inl (h2 ▸ h1)
    · exact Or.inl (h1 ▸ h2)
    · exact Or.inr ⟨h1.trans h2, d1.trans d2⟩

/-- The pipeline `mapPoiService.deduplicateAndSort`: the `reduce`-based merge pass followed
by the rating-descending / distance-ascending sort.  `Array.prototype.sort`
with a consistent comparator is modelled by the (stable) insertion sort. -/
def deduplicateAndSort (results : List Restaurant) : List Restaurant :=
  List.insertionSort restaurantLE (results.foldl insertMerge [])

/-- The filter `mapPoiService.filterByCuisineType`.  JS falsiness of the string argument
is `= ""`; `tag.includes(cuisineType)` is the substring test. -/
def filterByCuisineType (restaurants : List Restaurant) (cuisineType : String) :
    List Restaurant :=
  if cuisineType = "" then restaurants
  else restaurants.filter (fun r =>
    r.cuisine_type = cuisineType ∨ r.tags.any (fun tag => hasInfix tag.toList cuisineType.toList))

/-- The filter `mapPoiService.filterByPriceRange`. -/
def filterByPriceRange (restaurants : List Restaurant) (priceRange : String) :
    List Restaurant :=
  if priceRange = "" then restaurants
  else restaurants.filter (fun r => r.price_range = priceRange)

/-- The filter `mapPoiService.filterByDistance`.  JS falsiness of the numeric argument is
`= 0` (`NaN` not modelled). -/
def filterByDistance (restaurants : List Restaurant) (maxDistance : ℚ) :
    List Restaurant :=
  if maxDistance = 0 then restaurants
  else restaurants.filter (fun r => r.distance.getD 0 ≤ maxDistance)

/-! ## Multi-provider fan-out (`mapPoiService.searchNearbyFood`,
`searchFoodInRegion`, `searchFood`)

Each provider call is abstracted into an environment field holding the outcome
(`.ok` = normalised restaurant list, `.error` = the call threw); the service
methods' own key checks, platform filters and `try`/`catch` recovery are
translated faithfully.  Results are `Except String (List Restaurant)` so that
"fails with an error" versus "returns successfully" is expressible. -/

structure PoiEnv where
  geo : GeoEnv
  baiduNearby : Except String (List Restaurant)
  amapNearby : Except String (List Restaurant)
  baiduRegion : Except String (List Restaurant)
  amapText : Except String (List Restaurant)

/-- A JavaScript `try { body } catch { return fallback }` block. -/
def jsTry (body : Except String (List Restaurant)) (fallback : List Restaurant) :
    Except String (List Restaurant) :=
  match body with
  | .ok l => .ok l
  | .error _ => .ok fallback

/-- The wrapper `mapPoiService.searchNearbyFoodWithBaidu`: the Baidu circle search, with
its internal `catch` turning a provider failure into `[]`. -/
def searchNearbyFoodWithBaidu (env : PoiEnv) : Except String (List Restaurant) :=
  jsTry env.baiduNearby []

/-- The wrapper `mapPoiService.searchNearbyFoodWithAmap`, likewise. -/
def searchNearbyFoodWithAmap (env : PoiEnv) : Except String (List Restaurant) :=
  jsTry env.amapNearby []

/-- The wrapper `mapPoiService.searchFoodWithAmapText`, likewise. -/
def searchFoodWithAmapText (env : PoiEnv) : Except String (List Restaurant) :=
  jsTry env.amapText []

/-- The wrapper `mapPoiService.searchFoodInRegion`: the Baidu region search wrapper, with
its internal `catch` turning a failure into `[]` (the underlying
`baiduLocationService.searchFoodInRegion` also catches internally). -/
def searchFoodInRegion (env : PoiEnv) : Except String (List Restaurant) :=
  jsTry env.baiduRegion []

/-- The fan-out `mapPoiService.searchNearbyFood`: fan out to Baidu/Amap (each gated on
platform membership and a configured key), concatenate, deduplicate and sort;
the outer `catch` returns `[]`. -/
def searchNearbyFood (env : PoiEnv) (platforms : List String) :
    Except String (List Restaurant) :=
  jsTry (
    (if platforms.contains "baidu" ∧ env.geo.baiduKey then
        searchNearbyFoodWithBaidu env
      else pure []).bind (fun r1 =>
    (if platforms.contains "amap" ∧ env.geo.amapKey then
        searchNearbyFoodWithAmap env
      else pure []).bind (fun r2 =>
    pure (deduplicateAndSort (r1 ++ r2))))) []

/-- The `region` branch of `mapPoiService.searchFood`: Baidu region search
(gated only on platform membership), Amap text search (gated on platform
membership and key), then `deduplicateAndSort` of the union. -/
def regionPath (env : PoiEnv) (platforms : List String) :
    Except String (List Restaurant) :=
  (if platforms.contains "baidu" then searchFoodInRegion env else pure []).bind (fun r1 =>
  (if platforms.contains "amap" ∧ env.geo.amapKey then
      searchFoodWithAmapText env
    else pure []).bind (fun r2 =>
  pure (deduplicateAndSort (r1 ++ r2))))

/-- The dispatcher `mapPoiService.searchFood`: strategy dispatch.  The `coordinate` branch
resolves coordinates through `getCoordinates` and runs the nearby fan-out; the
`mixed` branch tries the Baidu region search inside its own `try`/`catch`,
returns its raw result when non-empty, and otherwise falls back to the
coordinate path.  (The resolved coordinates feed the abstracted provider
calls, so they are bound but not further consumed here.) -/
def searchFood (env : PoiEnv) (location : String) (platforms : List String) :
    Except String (List Restaurant) :=
  jsTry (
    match determineSearchStrategy location with
    | .region => regionPath env platforms
    | .coordinate =>
      let _coords := getCoordinates env.geo location
      searchNearbyFood env platforms
    | .mixed =>
      (jsTry (searchFoodInRegion env) []).bind (fun regionResults =>
        if regionResults ≠ [] then
          pure regionResults
        else
          let _coords := getCoordinates env.geo location
          searchNearbyFood env platforms)) []

/-! ## Coordinate math (`amapLocationService.calculateDistance`)

The trigonometric distance functions are stated over `ℝ` (the idealised
real-number reading of the double-precision source). -/

/-- Real-valued coordinates for the distance math. -/
structure RCoordinates where
  lat : ℝ
  lng : ℝ

/-- Degrees to radians, `toRadians`. -/
noncomputable def toRadians (degrees : ℝ) : ℝ :=
  degrees * (Real.pi / 180)

/-- JavaScript `Math.atan2` (signed zero not modelled). -/
noncomputable def atan2 (y x : ℝ) : ℝ :=
  if 0 < x then Real.arctan (y / x)
  else if x < 0 ∧ 0 ≤ y then Real.arctan (y / x) + Real.pi
  else if x < 0 ∧ y < 0 then Real.arctan (y / x) - Real.pi
  else if x = 0 ∧ 0 < y then Real.pi / 2
  else if x = 0 ∧ y < 0 then -(Real.pi / 2)
  else 0

/-- The planar branch of `amapLocationService.calculateDistance`:
`latMeters = Δlat × 111320`, `lngMeters = Δlng × 111320 × cos(meanLat)`,
Euclidean norm. -/
noncomputable def planarDistance (coord1 coord2 : RCoordinates) : ℝ :=
  let latMeters := (coord2.lat - coord1.lat) * 111320
  let lngMeters := (coord2.lng - coord1.lng) * 111320 *
    Real.cos (toRadians ((coord1.lat + coord2.lat) / 2))
  Real.sqrt (latMeters * latMeters + lngMeters * lngMeters)

/-- The haversine correction used inside `calculateDistance` (identical to
`calculateDistanceHaversine`), mean Earth radius 6 371 000 m. -/
noncomputable def haversineDistance (coord1 coord2 : RCoordinates) : ℝ :=
  let R : ℝ := 6371000
  let dLat := toRadians (coord2.lat - coord1.lat)
  let dLng := toRadians (coord2.lng - coord1.lng)
  let a := Real.sin (dLat / 2) * Real.sin (dLat / 2) +
    Real.cos (toRadians coord1.lat) * Real.cos (toRadians coord2.lat) *
    Real.sin (dLng / 2) * Real.sin (dLng / 2)
  let c := 2 * atan2 (Real.sqrt a) (Real.sqrt (1 - a))
  R * c

/-- The blend `amapLocationService.calculateDistance`: planar estimate, blended with the
haversine value (arithmetic mean) only when the planar estimate exceeds
1000 m. -/
noncomputable def calculateDistance (coord1 coord2 : RCoordinates) : ℝ :=
  let distance := planarDistance coord1 coord2
  if 1000 < distance then (distance + haversineDistance coord1 coord2) / 2
  else distance

/-! ## Inversion lemmas for the number and coordinate matchers -/

theorem isNumChar_of_digit {c : Char} (h : isDigitC c = true) : isNumChar c = true := by
  simp [isNumChar, h]

theorem numTail_self {neg : Bool} {pre : List Char}
    (hd : ∀ c ∈ pre, isDigitC c = true) (hne : pre ≠ []) :
    numTail neg pre = some (numValue neg pre [], []) := by
  have h1 := takeWhile_all (p := isDigitC) (a := pre) hd
  simp only [numTail, h1.1, h1.2, if_neg hne]
  simp

theorem numTail_self_dot {neg : Bool} {ints fr : List Char}
    (hi : ∀ c ∈ ints, isDigitC c = true) (hne : ints ≠ [])
    (hf : ∀ c ∈ fr, isDigitC c = true) :
    numTail neg (ints ++ '.' :: fr) = some (numValue neg ints fr, []) := by
  have h2 := takeWhile_append_not (a := ints) (c := '.') (b := fr) hi (by decide)
  have h3 := takeWhile_all (p := isDigitC) (a := fr) hf
  simp only [numTail, h2.1, h2.2, if_neg hne]
  simp [h3.1, h3.2]

theorem numTail_inv {neg : Bool} {l1 : List Char} {q : ℚ} {rest : List Char}
    (h : numTail neg l1 = some (q, rest)) :
    ∃ pre, l1 = pre ++ rest ∧ numTail neg pre = some (q, []) ∧ pre ≠ [] ∧
      ∀ c ∈ pre, isNumChar c = true := by
  have hsplit : l1.takeWhile isDigitC ++ l1.dropWhile isDigitC = l1 :=
    List.takeWhile_append_dropWhile isDigitC l1
  have hdig : ∀ c ∈ l1.takeWhile isDigitC, isDigitC c = true :=
    fun c hc => List.mem_takeWhile_imp hc
  by_cases hi : l1.takeWhile isDigitC = []
  · simp [numTail, hi] at h
  · rw [numTail] at h
    simp only [if_neg hi] at h
    by_cases hdot : (l1.dropWhile isDigitC).head? = some '.'
    · rw [if_pos hdot] at h
      obtain ⟨r2, hr1⟩ : ∃ r2, l1.dropWhile isDigitC = '.' :: r2 := by
        rcases hdw : l1.dropWhile isDigitC with _ | ⟨c, r2⟩
        · rw [hdw] at hdot; simp at hdot
        · rw [hdw] at hdot
          simp only [List.head?_cons, Option.some.injEq] at hdot
          exact ⟨r2, by rw [hdot]⟩
      rw [hr1] at h
      simp only [List.tail_cons, Option.some.injEq, Prod.mk.injEq] at h
      obtain ⟨hq, hrest⟩ := h
      have hfr : ∀ c ∈ r2.takeWhile isDigitC, isDigitC c = true :=
        fun c hc => List.mem_takeWhile_imp hc
      refine ⟨l1.takeWhile isDigitC ++ '.' :: r2.takeWhile isDigitC, ?_, ?_, by simp, ?_⟩
      · conv_lhs => rw [← hsplit, hr1]
        rw [← hrest, List.append_assoc, List.cons_append,
          List.takeWhile_append_dropWhile]
      · rw [numTail_self_dot hdig hi hfr, hq]
      · intro c hc
        rcases List.mem_append.mp hc with h1 | h2
        · exact isNumChar_of_digit (hdig c h1)
        · rcases List.mem_cons.mp h2 with rfl | h3
          · decide
          · exact isNumChar_of_digit (hfr c h3)
    · rw [if_neg hdot] at h
      simp only [Option.some.injEq, Prod.mk.injEq] at h
      obtain ⟨hq, hrest⟩ := h
      refine ⟨l1.takeWhile isDigitC, ?_, ?_, hi, ?_⟩
      · rw [← hrest]; exact hsplit.symm
      · rw [numTail_self hdig hi, hq]
      · exact fun c hc => isNumChar_of_digit (hdig c hc)

theorem numCore_inv {l : List Char} {q : ℚ} {rest : List Char}
    (h : numCore l = some (q, rest)) :
    ∃ pre, l = pre ++ rest ∧ numCore pre = some (q, []) ∧ pre ≠ [] ∧
      ∀ c ∈ pre, isNumChar c = true := by
  unfold numCore at h
  by_cases hm : l.head? = some '-'
  · rw [if_pos hm] at h
    obtain ⟨c0, t, rfl⟩ : ∃ c0 t, l = c0 :: t := by
      rcases l with _ | ⟨c0, t⟩
      · simp at hm
      · exact ⟨c0, t, rfl⟩
    simp only [List.head?_cons, Option.some.injEq] at hm
    subst hm
    simp only [List.tail_cons] at h
    obtain ⟨pre, hsplit, hself, hne, hch⟩ := numTail_inv h
    refine ⟨'-' :: pre, by simp [hsplit], ?_, by simp, ?_⟩
    · unfold numCore
      simp only [List.head?_cons, List.tail_cons, if_pos rfl]
      exact hself
    · intro c hc
      rcases List.mem_cons.mp hc with rfl | h2
      · decide
      · exact hch c h2
  · rw [if_neg hm] at h
    obtain ⟨pre, hsplit, hself, hne, hch⟩ := numTail_inv h
    refine ⟨pre, hsplit, ?_, hne, hch⟩
    unfold numCore
    have hpm : ¬ pre.head? = some '-' := by
      obtain ⟨p0, pre', rfl⟩ := List.exists_cons_of_ne_nil hne
      rw [hsplit] at hm
      simpa using hm
    rw [if_neg hpm]
    exact hself

theorem coordMatch_inv {l : List Char} {q1 q2 : ℚ}
    (h : coordMatch l = some (q1, q2)) :
    ∃ pre1 w pre2, l = pre1 ++ ',' :: (w ++ pre2) ∧
      numCore pre1 = some (q1, []) ∧ pre1 ≠ [] ∧ (∀ c ∈ pre1, isNumChar c = true) ∧
      (∀ c ∈ w, isWsChar c = true) ∧
      numCore pre2 = some (q2, []) ∧ pre2 ≠ [] ∧ (∀ c ∈ pre2, isNumChar c = true) := by
  unfold coordMatch at h
  rcases hn : numCore l with _ | ⟨⟨qa, rest⟩⟩
  · rw [hn] at h; simp at h
  · rw [hn] at h
    dsimp only at h
    by_cases hcomma : rest.head? = some ','
    · rw [if_pos hcomma] at h
      rcases hn2 : numCore (rest.tail.dropWhile isWsChar) with _ | ⟨⟨qb, r⟩⟩
      · rw [hn2] at h; simp at h
      · rw [hn2] at h
        dsimp only at h
        by_cases hr : r = []
        · rw [if_pos hr] at h
          simp only [Option.some.injEq, Prod.mk.injEq] at h
          obtain ⟨rfl, rfl⟩ := h
          subst hr
          obtain ⟨r2, hrest⟩ : ∃ r2, rest = ',' :: r2 := by
            rcases rest with _ | ⟨c, r2⟩
            · simp at hcomma
            · simp only [List.head?_cons, Option.some.injEq] at hcomma
              exact ⟨r2, by rw [hcomma]⟩
          subst hrest
          simp only [List.tail_cons] at hn2
          obtain ⟨pre1, hl1, hself1, hne1, hch1⟩ := numCore_inv hn
          obtain ⟨pre2, hl2, hself2, hne2, hch2⟩ := numCore_inv hn2
          rw [List.append_nil] at hl2
          refine ⟨pre1, r2.takeWhile isWsChar, pre2, ?_, hself1, hne1, hch1,
            fun c hc => List.mem_takeWhile_imp hc, hself2, hne2, hch2⟩
          rw [hl1, ← hl2, List.takeWhile_append_dropWhile]
        · rw [if_neg hr] at h; simp at h
    · rw [if_neg hcomma] at h; simp at h

theorem numTail_imp_jsNumTail {neg : Bool} {l1 : List Char} {q : ℚ} {rest : List Char}
    (h : numTail neg l1 = some (q, rest)) :
    jsNumTail neg l1 = some (q, rest) := by
  unfold numTail at h
  unfold jsNumTail
  by_cases hi : l1.takeWhile isDigitC = []
  · simp [hi] at h
  · rw [if_neg hi] at h
    by_cases hdot : (l1.dropWhile isDigitC).head? = some '.'
    · rw [if_pos hdot] at h
      rw [if_pos hdot, if_neg (by simp [hi])]
      exact h
    · rw [if_neg hdot] at h
      rw [if_neg hdot, if_neg hi]
      exact h

theorem numCore_imp_jsNumCore {l : List Char} {q : ℚ} {rest : List Char}
    (h : numCore l = some (q, rest)) :
    jsNumCore l = some (q, rest) := by
  unfold numCore at h
  unfold jsNumCore
  by_cases hm : l.head? = some '-'
  · rw [if_pos hm] at h
    rw [if_pos hm]
    exact numTail_imp_jsNumTail h
  · rw [if_neg hm] at h
    rw [if_neg hm]
    by_cases hp : l.head? = some '+'
    · exfalso
      obtain ⟨t, rfl⟩ : ∃ t, l = '+' :: t := by
        rcases l with _ | ⟨c0, t⟩
        · simp at hp
        · simp only [List.head?_cons, Option.some.injEq] at hp
          exact ⟨t, by rw [hp]⟩
      have htw : ('+' :: t).takeWhile isDigitC = [] := by
        simp [List.takeWhile, show isDigitC '+' = false from by decide]
      rw [numTail, htw] at h
      simp at h
    · rw [if_neg hp]
      exact numTail_imp_jsNumTail h

theorem jsParseFloat_of_numCore {pre : List Char} {q : ℚ}
    (h : numCore pre = some (q, [])) (hch : ∀ c ∈ pre, isNumChar c = true)
    (hne : pre ≠ []) :
    jsParseFloat pre = some q := by
  unfold jsParseFloat
  have hdw : pre.dropWhile isWsChar = pre := by
    obtain ⟨p0, t, rfl⟩ := List.exists_cons_of_ne_nil hne
    exact dropWhile_head_not (isNumChar_not_ws (hch p0 (by simp)))
  rw [hdw, numCore_imp_jsNumCore h]
  rfl

/-- Characters a full coordinate-regex match can contain. -/
def allowedChar (c : Char) : Bool :=
  isNumChar c || c == ',' || isWsChar c

theorem coordMatch_chars {l : List Char} {r : ℚ × ℚ} (h : coordMatch l = some r) :
    ∀ c ∈ l, allowedChar c = true := by
  obtain ⟨q1, q2⟩ := r
  obtain ⟨pre1, w, pre2, hl, _, _, hch1, hw, _, _, hch2⟩ := coordMatch_inv h
  intro c hc
  rw [hl] at hc
  rcases List.mem_append.mp hc with h1 | h2
  · simp [allowedChar, hch1 c h1]
  · rcases List.mem_cons.mp h2 with rfl | h3
    · decide
    · rcases List.mem_append.mp h3 with h4 | h5
      · simp [allowedChar, hw c h4]
      · simp [allowedChar, hch2 c h5]

theorem region_not_coordFormat {s : String} (h : isRegionSearch s = true) :
    isCoordinateFormat s = false := by
  by_contra hcf
  have hcf' : isCoordinateFormat s = true := by
    simpa using hcf
  obtain ⟨r, hr⟩ : ∃ r, coordMatch s.toList = some r := by
    unfold isCoordinateFormat at hcf'
    exact Option.isSome_iff_exists.mp hcf'
  have hall := coordMatch_chars hr
  unfold isRegionSearch at h
  rw [List.any_eq_true] at h
  obtain ⟨k, hk, hinf⟩ := h
  have hbad : ∃ c, c ∈ k.toList ∧ allowedChar c = false := by
    simp only [REGION_KEYWORDS, List.mem_cons, List.not_mem_nil, or_false] at hk
    rcases hk with rfl | rfl | rfl | rfl | rfl | rfl
    · exact ⟨'市', by decide, by decide⟩
    · exact ⟨'县', by decide, by decide⟩
    · exact ⟨'区', by decide, by decide⟩
    · exact ⟨'省', by decide, by decide⟩
    · exact ⟨'自', by decide, by decide⟩
    · exact ⟨'特', by decide, by decide⟩
  obtain ⟨c, hck, hcbad⟩ := hbad
  have hcs : c ∈ s.toList := hasInfix_mem hinf hck
  rw [hall c hcs] at hcbad
  simp at hcbad

/-! ## Claim theorems: strategy classification and coordinate parsing -/

/-- C4: the strategy classifier is a pure total function on strings whose
behaviour is exactly the spec's precedence-ordered description: coordinate
pattern or current-location sentinel ⟹ `coordinate` (even though the source
tests region keywords first, no coordinate-format string or sentinel can
contain one); otherwise a region-keyword match ⟹ `region`; otherwise
`mixed`. -/
theorem determineSearchStrategy_matches_spec (s : String) :
    determineSearchStrategy s = classifySpec s := by
  unfold determineSearchStrategy classifySpec
  by_cases hc : isCoordinateFormat s = true
  · have hr : isRegionSearch s = false := by
      cases hREG : isRegionSearch s
      · rfl
      · rw [region_not_coordFormat hREG] at hc
        simp at hc
    simp [hr, hc]
  · by_cases hs : s = "当前位置" ∨ s = "current location"
    · have hr : isRegionSearch s = false := by
        rcases hs with rfl | rfl <;> decide
      simp [hr, hc, hs]
    · simp [hc, hs]

/-- C7: for every string accepted by the coordinate-pair regex (witnessed by
`coordMatch` returning the two parsed numbers), `parseCoordinate` returns
exactly `{lat := first number, lng := second number}`; and whenever a split
component is missing or unparsable (its `parseFloat` is `NaN`), the
corresponding field defaults to `0`. -/
theorem parseCoordinate_correct (s : String) :
    (∀ q1 q2, coordMatch s.toList = some (q1, q2) → parseCoordinate s = ⟨q1, q2⟩) ∧
    ((splitOnComma s.toList)[0]?.bind (fun p => jsParseFloat (trimList p)) = none →
      (parseCoordinate s).lat = 0) ∧
    ((splitOnComma s.toList)[1]?.bind (fun p => jsParseFloat (trimList p)) = none →
      (parseCoordinate s).lng = 0) := by
  refine ⟨?_, ?_, ?_⟩
  · intro q1 q2 h
    obtain ⟨pre1, w, pre2, hl, hn1, hne1, hch1, hw, hn2, hne2, hch2⟩ := coordMatch_inv h
    have hsplitEq : splitOnComma s.toList = [pre1, w ++ pre2] := by
      rw [hl, splitOnComma_append (fun c hc => isNumChar_ne_comma (hch1 c hc)),
        splitOnComma_no_comma ?noc]
      case noc =>
        intro c hc
        rcases List.mem_append.mp hc with hcw | hcp
        · exact isWsChar_ne_comma (hw c hcw)
        · exact isNumChar_ne_comma (hch2 c hcp)
    have ht1 : trimList pre1 = pre1 := by
      have := trimList_ws_append (w := []) (a := pre1) (by simp)
        (fun c hc => isNumChar_not_ws (hch1 c hc)) hne1
      simpa using this
    have ht2 : trimList (w ++ pre2) = pre2 :=
      trimList_ws_append hw (fun c hc => isNumChar_not_ws (hch2 c hc)) hne2
    unfold parseCoordinate
    rw [hsplitEq]
    simp [ht1, ht2, jsParseFloat_of_numCore hn1 hch1 hne1,
      jsParseFloat_of_numCore hn2 hch2 hne2]
  · intro h0
    unfold parseCoordinate
    rcases hg : (splitOnComma s.toList)[0]? with _ | p
    · have hg' : (splitOnComma s.data)[0]? = none := hg
      simp [List.getElem?_map, hg']
    · rw [hg] at h0
      have h0' : jsParseFloat (trimList p) = none := h0
      have hg' : (splitOnComma s.data)[0]? = some p := hg
      simp [List.getElem?_map, hg', h0']
  · intro h0
    unfold parseCoordinate
    rcases hg : (splitOnComma s.toList)[1]? with _ | p
    · have hg' : (splitOnComma s.data)[1]? = none := hg
      simp [List.getElem?_map, hg']
    · rw [hg] at h0
      have h0' : jsParseFloat (trimList p) = none := h0
      have hg' : (splitOnComma s.data)[1]? = some p := hg
      simp [List.getElem?_map, hg', h0']

/-- C6: the output of `deduplicateAndSort` is pairwise ordered by rating
descending, then by distance ascending with a missing distance treated as `0`
(so such records sort first among rating ties). -/
theorem deduplicateAndSort_sorted (results : List Restaurant) :
    List.Pairwise
      (fun a b => b.rating < a.rating ∨
        (a.rating = b.rating ∧ a.distance.getD 0 ≤ b.distance.getD 0))
      (deduplicateAndSort results) :=
  List.sorted_insertionSort restaurantLE (results.foldl insertMerge [])

/-- C10: each filter is the identity on a falsy filter argument: empty cuisine
string, empty price string, and `maxDistance = 0` all return the input list
unchanged. -/
theorem filters_identity_on_falsy (restaurants : List Restaurant) :
    filterByCuisineType restaurants "" = restaurants ∧
    filterByPriceRange restaurants "" = restaurants ∧
    filterByDistance restaurants 0 = restaurants := by
  refine ⟨?_, ?_, ?_⟩ <;>
    simp [filterByCuisineType, filterByPriceRange, filterByDistance]

/-! ## Claim theorems: distance blending -/

/-- C5: the blended distance equals the planar approximation whenever that
planar value is at most 1000 m (including exactly 1000 m — no blending at the
threshold), and equals the arithmetic mean of the planar and haversine
estimates whenever the planar value exceeds 1000 m, in which case it lies
between the two raw estimates. -/
theorem calculateDistance_blend (coord1 coord2 : RCoordinates) :
    (planarDistance coord1 coord2 ≤ 1000 →
      calculateDistance coord1 coord2 = planarDistance coord1 coord2) ∧
    (1000 < planarDistance coord1 coord2 →
      calculateDistance coord1 coord2 =
        (planarDistance coord1 coord2 + haversineDistance coord1 coord2) / 2 ∧
      min (planarDistance coord1 coord2) (haversineDistance coord1 coord2) ≤
        calculateDistance coord1 coord2 ∧
      calculateDistance coord1 coord2 ≤
        max (planarDistance coord1 coord2) (haversineDistance coord1 coord2)) := by
  constructor
  · intro h
    unfold calculateDistance
    rw [if_neg (not_lt.mpr h)]
  · intro h
    have heq : calculateDistance coord1 coord2 =
        (planarDistance coord1 coord2 + haversineDistance coord1 coord2) / 2 := by
      unfold calculateDistance
      rw [if_pos h]
    refine ⟨heq, ?_, ?_⟩
    · rw [heq]
      rcases le_total (planarDistance coord1 coord2) (haversineDistance coord1 coord2)
        with hle | hle
      · rw [min_eq_left hle]; linarith
      · rw [min_eq_right hle]; linarith
    · rw [heq]
      rcases le_total (planarDistance coord1 coord2) (haversineDistance coord1 coord2)
        with hle | hle
      · rw [max_eq_right hle]; linarith
      · rw [max_eq_left hle]; linarith

/-- The origin, and a point one degree of latitude north of it. -/
def originR : RCoordinates := ⟨0, 0⟩

def oneDegNorthR : RCoordinates := ⟨1, 0⟩

theorem planarDistance_self_origin : planarDistance originR originR = 0 := by
  unfold planarDistance originR
  norm_num

theorem planarDistance_oneDegNorth : planarDistance originR oneDegNorthR = 111320 := by
  unfold planarDistance originR oneDegNorthR
  norm_num
  rw [show (12392142400 : ℝ) = 111320 ^ 2 by norm_num]
  exact Real.sqrt_sq (by norm_num)

/-- Witness for `calculateDistance_blend`: at coincident points the planar
value is `0 ≤ 1000` and the blended result is the planar value; one degree of
latitude from the origin the planar value is `111320 > 1000` and the blended
result is the planar/haversine mean. -/
theorem calculateDistance_blend_witness :
    (planarDistance originR originR ≤ 1000 ∧
      calculateDistance originR originR = planarDistance originR originR) ∧
    (1000 < planarDistance originR oneDegNorthR ∧
      calculateDistance originR oneDegNorthR =
        (planarDistance originR oneDegNorthR + haversineDistance originR oneDegNorthR) / 2) := by
  have h0 : planarDistance originR originR ≤ 1000 := by
    rw [planarDistance_self_origin]; norm_num
  have h1 : (1000 : ℝ) < planarDistance originR oneDegNorthR := by
    rw [planarDistance_oneDegNorth]; norm_num
  exact ⟨⟨h0, (calculateDistance_blend originR originR).1 h0⟩,
    ⟨h1, ((calculateDistance_blend originR oneDegNorthR).2 h1).1⟩⟩

/-! ## Claim theorems: deduplication merge law -/

/-- C1 (amended): merging two same-place records produces exactly one record.
When the incoming record's rating is strictly higher, `Object.assign` replaces
every field of the kept record — including `platforms`, overwriting the union
computed just before, so the merged record is the incoming record unchanged.
Only when the incoming rating is not higher does the kept record survive with
the union of the two platform lists. -/
theorem dedup_merge_pair (r1 r2 : Restaurant) (h : samePlace r1 r2 = true) :
    deduplicateAndSort [r1, r2] =
      [if r1.rating < r2.rating then r2
       else { r1 with platforms := jsSetUnion r1.platforms r2.platforms }] := by
  unfold deduplicateAndSort
  simp only [List.foldl]
  rw [show insertMerge [] r1 = [r1] from rfl]
  simp only [insertMerge, if_pos h]
  simp only [List.insertionSort, List.orderedInsert, mergeRecords]

/-- Two same-place records (`location` defaults coincide) with the better
rating arriving second. -/
def dupLowFirst : Restaurant :=
  { name := "老王面馆", rating := 1, platforms := ["baidu_map"], source := "baidu_map" }

def dupHighSecond : Restaurant :=
  { name := "老王面馆", rating := 2, platforms := ["amap"], source := "amap" }

/-- C1 counterexample: with ratings 1 and 2 and platform lists
`["baidu_map"]` / `["amap"]`, the merged record's platform list is `["amap"]`
alone — the union `["baidu_map", "amap"]` demanded by the claim is lost when
the better-rated incoming record replaces all fields. -/
theorem dedup_merge_union_counterexample :
    (deduplicateAndSort [dupLowFirst, dupHighSecond]).map Restaurant.platforms =
      [["amap"]] ∧
    "baidu_map" ∉ (["amap"] : List String) ∧
    (["amap"] : List String) ≠ ["baidu_map", "amap"] := by
  refine ⟨?_, by decide, by decide⟩
  have h : samePlace dupLowFirst dupHighSecond = true := by
    simp only [samePlace, dupLowFirst, dupHighSecond]
    norm_num
  have hm : mergeRecords dupLowFirst dupHighSecond = dupHighSecond := by
    unfold mergeRecords
    rw [if_pos (by norm_num [dupLowFirst, dupHighSecond])]
  unfold deduplicateAndSort
  simp only [List.foldl]
  rw [show insertMerge [] dupLowFirst = [dupLowFirst] from rfl]
  simp only [insertMerge, if_pos h, hm]
  simp [List.insertionSort, List.orderedInsert, dupHighSecond]

/-- Two same-place records with equal ratings. -/
def dupTieFirst : Restaurant :=
  { name := "同福客栈", rating := 3, platforms := ["baidu_map"] }

def dupTieSecond : Restaurant :=
  { name := "同福客栈", rating := 3, platforms := ["amap"] }

/-- Witness for `dedup_merge_pair`: on a rating tie the kept record survives
with the platform union. -/
theorem dedup_merge_pair_witness :
    samePlace dupTieFirst dupTieSecond = true ∧
    deduplicateAndSort [dupTieFirst, dupTieSecond] =
      [{ dupTieFirst with
          platforms := jsSetUnion dupTieFirst.platforms dupTieSecond.platforms }] := by
  have h : samePlace dupTieFirst dupTieSecond = true := by
    simp only [samePlace, dupTieFirst, dupTieSecond]
    norm_num
  refine ⟨h, ?_⟩
  rw [dedup_merge_pair dupTieFirst dupTieSecond h]
  rw [if_neg (by norm_num [dupTieFirst, dupTieSecond])]

/-! ## Claim theorems: geocoding fallback and the current-location sentinel -/

/-- C2 (amended): `geocodeAddress` consults only the highest-priority
configured provider (Baidu if its key is set, otherwise Amap); if that single
attempt fails, or no provider is configured, it returns the hardcoded default
coordinates instead of failing — it never raises and never tries the next
provider after a failure. -/
theorem geocodeAddress_first_configured (env : GeoEnv) (address : String) :
    (env.baiduKey = true →
      geocodeAddress env address =
        match env.baiduGeocode address with
        | .ok c => c
        | .error _ => DEFAULT_COORDINATES) ∧
    (env.baiduKey = false → env.amapKey = true →
      geocodeAddress env address =
        match env.amapGeocode address with
        | .ok c => c
        | .error _ => DEFAULT_COORDINATES) ∧
    (env.baiduKey = false → env.amapKey = false →
      geocodeAddress env address = DEFAULT_COORDINATES) := by
  unfold geocodeAddress
  refine ⟨?_, ?_, ?_⟩
  · intro hb
    rw [if_pos hb]
  · intro hb ha
    rw [if_neg (by simp [hb]), if_pos ha]
  · intro hb ha
    rw [if_neg (by simp [hb]), if_neg (by simp [ha])]

/-- No provider key configured. -/
def geoEnvNoKeys : GeoEnv :=
  { baiduKey := false, amapKey := false,
    baiduGeocode := fun _ => .error "未配置地图API密钥",
    amapGeocode := fun _ => .error "未配置地图API密钥",
    amapIpLocate := .error "未配置地图API密钥" }

/-- Both keys configured; Baidu fails, Amap would succeed. -/
def geoEnvBaiduFails : GeoEnv :=
  { baiduKey := true, amapKey := true,
    baiduGeocode := fun _ => .error "百度地图API错误",
    amapGeocode := fun _ => .ok ⟨31.23, 121.47⟩,
    amapIpLocate := .error "unused" }

/-- Witness for `geocodeAddress_first_configured`: a failing Baidu attempt and
a fully unconfigured resolver both yield the default coordinates. -/
theorem geocodeAddress_first_configured_witness :
    geocodeAddress geoEnvBaiduFails "外滩" = DEFAULT_COORDINATES ∧
    geocodeAddress geoEnvNoKeys "外滩" = DEFAULT_COORDINATES :=
  ⟨(geocodeAddress_first_configured geoEnvBaiduFails "外滩").1 rfl,
   (geocodeAddress_first_configured geoEnvNoKeys "外滩").2.2 rfl rfl⟩

/-- C2 counterexample: with Baidu configured but failing and Amap configured
and succeeding at `(31.23, 121.47)`, the spec's resolver returns Amap's
success while the code returns the hardcoded Beijing default — the code
neither tries the next provider nor fails. -/
theorem geocodeAddress_counterexample :
    specGeocodeResolve geoEnvBaiduFails "外滩" = .ok ⟨31.23, 121.47⟩ ∧
    geocodeAddress geoEnvBaiduFails "外滩" = DEFAULT_COORDINATES ∧
    DEFAULT_COORDINATES ≠ (⟨31.23, 121.47⟩ : Coordinates) := by
  refine ⟨rfl, rfl, ?_⟩
  intro hcon
  have hlat := congrArg Coordinates.lat hcon
  norm_num [DEFAULT_COORDINATES] at hlat

/-- C3 (amended): for either current-location sentinel literal,
`getCoordinates` returns the hardcoded default coordinates immediately — for
every environment, so no provider IP-locate capability is ever consulted and
no failure is possible. -/
theorem getCoordinates_sentinel_default (env : GeoEnv) (location : String)
    (h : location = "当前位置" ∨ location = "current location") :
    getCoordinates env location = DEFAULT_COORDINATES := by
  rcases h with rfl | rfl
  · unfold getCoordinates
    rw [if_neg (by decide), if_pos (Or.inl rfl)]
  · unfold getCoordinates
    rw [if_neg (by decide), if_pos (Or.inr rfl)]

/-- Amap key configured but its IP-locate call fails. -/
def geoEnvIpFails : GeoEnv :=
  { baiduKey := false, amapKey := true,
    baiduGeocode := fun _ => .error "未配置地图API密钥",
    amapGeocode := fun _ => .error "unused",
    amapIpLocate := .error "高德地图IP定位API无法获取精确坐标" }

/-- Witness for `getCoordinates_sentinel_default`. -/
theorem getCoordinates_sentinel_default_witness :
    getCoordinates geoEnvIpFails "当前位置" = DEFAULT_COORDINATES :=
  getCoordinates_sentinel_default geoEnvIpFails "当前位置" (Or.inl rfl)

/-- C3 counterexample: with IP location failing, the spec's sentinel
resolution fails with a `ResolutionError`, while the code returns the
hardcoded default coordinates (and never invokes IP location at all). -/
theorem getCoordinates_sentinel_counterexample :
    specSentinelResolve geoEnvIpFails = .error () ∧
    getCoordinates geoEnvIpFails "当前位置" = DEFAULT_COORDINATES := by
  refine ⟨rfl, ?_⟩
  unfold getCoordinates
  rw [if_neg (by decide), if_pos (Or.inl rfl)]

/-! ## Claim theorems: aggregation failure handling and the mixed strategy -/

theorem jsTry_always_ok (body : Except String (List Restaurant))
    (fallback : List Restaurant) : ∃ l, jsTry body fallback = .ok l := by
  rcases body with e | l <;> simp [jsTry]

/-- C8 (amended): when every provider eligible for the nearby fan-out has
failed or is unconfigured, `searchNearbyFood` returns the empty list as a
success — each provider failure is absorbed as an empty contribution, and no
`AggregationError` (or any error) is ever propagated. -/
theorem searchNearbyFood_all_fail_ok_empty (env : PoiEnv) (platforms : List String)
    (hb : platforms.contains "baidu" = true → env.geo.baiduKey = true →
      env.baiduNearby.toOption = none)
    (ha : platforms.contains "amap" = true → env.geo.amapKey = true →
      env.amapNearby.toOption = none) :
    searchNearbyFood env platforms = .ok [] := by
  have h1 : (if platforms.contains "baidu" ∧ env.geo.baiduKey then
      searchNearbyFoodWithBaidu env else pure []) =
      (pure [] : Except String (List Restaurant)) := by
    split_ifs with hcond
    · obtain ⟨hc1, hc2⟩ := hcond
      have hn := hb hc1 hc2
      unfold searchNearbyFoodWithBaidu
      rcases henv : env.baiduNearby with e | l
      · simp [jsTry, pure, Except.pure]
      · rw [henv] at hn; simp [Except.toOption] at hn
    · rfl
  have h2 : (if platforms.contains "amap" ∧ env.geo.amapKey then
      searchNearbyFoodWithAmap env else pure []) =
      (pure [] : Except String (List Restaurant)) := by
    split_ifs with hcond
    · obtain ⟨hc1, hc2⟩ := hcond
      have hn := ha hc1 hc2
      unfold searchNearbyFoodWithAmap
      rcases henv : env.amapNearby with e | l
      · simp [jsTry, pure, Except.pure]
      · rw [henv] at hn; simp [Except.toOption] at hn
    · rfl
  unfold searchNearbyFood
  rw [h1]
  simp only [h2]
  rfl

/-- Both keys configured; every provider call fails. -/
def geoEnvKeysOnly : GeoEnv :=
  { baiduKey := true, amapKey := true,
    baiduGeocode := fun _ => .error "服务不可用",
    amapGeocode := fun _ => .error "服务不可用",
    amapIpLocate := .error "服务不可用" }

def poiEnvAllFail : PoiEnv :=
  { geo := geoEnvKeysOnly,
    baiduNearby := .error "百度接口超时", amapNearby := .error "高德接口超时",
    baiduRegion := .error "百度接口超时", amapText := .error "高德接口超时" }

/-- Witness for `searchNearbyFood_all_fail_ok_empty`. -/
theorem searchNearbyFood_all_fail_witness :
    searchNearbyFood poiEnvAllFail ["baidu", "amap"] = .ok [] :=
  searchNearbyFood_all_fail_ok_empty poiEnvAllFail ["baidu", "amap"]
    (fun _ _ => rfl) (fun _ _ => rfl)

/-- C8 counterexample: with both providers configured and both nearby calls
failing, the aggregation call returns `.ok []` — a successful, user-visible
empty result — rather than failing with an `AggregationError`. -/
theorem searchNearbyFood_counterexample :
    searchNearbyFood poiEnvAllFail ["baidu", "amap"] = .ok [] ∧
    (searchNearbyFood poiEnvAllFail ["baidu", "amap"]).isOk = true :=
  ⟨rfl, rfl⟩

/-- C9 (amended): under the `mixed` strategy, `searchFood` attempts only the
Baidu region search (`searchFoodInRegion`) — not the merged two-provider
region path — and returns its raw result when non-empty; it falls back to the
coordinate path exactly when that Baidu-only region result is empty or its
call failed (failures are absorbed as empty both inside `searchFoodInRegion`
and by the surrounding `catch`, so the fallback always gets to run). -/
theorem searchFood_mixed_fallback (env : PoiEnv) (location : String)
    (platforms : List String)
    (hm : determineSearchStrategy location = .mixed) :
    (∀ l, env.baiduRegion = .ok l → l ≠ [] →
      searchFood env location platforms = .ok l) ∧
    (env.baiduRegion.toOption.getD [] = [] →
      searchFood env location platforms = searchNearbyFood env platforms) := by
  constructor
  · intro l hok hne
    unfold searchFood
    rw [hm]
    unfold searchFoodInRegion
    rw [hok]
    simp [jsTry, Except.bind, hne, pure, Except.pure]
  · intro h0
    have hregion : jsTry (searchFoodInRegion env) [] = .ok [] := by
      unfold searchFoodInRegion
      rcases henv : env.baiduRegion with e | l
      · simp [jsTry]
      · rw [henv] at h0
        simp [Except.toOption] at h0
        simp [jsTry, h0]
    obtain ⟨lr, hlr⟩ : ∃ l, searchNearbyFood env platforms = .ok l := by
      unfold searchNearbyFood
      exact jsTry_always_ok _ _
    unfold searchFood
    rw [hm]
    dsimp only
    rw [hregion]
    dsimp only [Except.bind]
    rw [if_neg (by simp), hlr]
    rfl

/-- A restaurant produced by the Baidu region search. -/
def regionRecord : Restaurant :=
  { name := "同福客栈酒楼", rating := 4, platforms := ["baidu_map"],
    source := "baidu_region_search" }

def poiEnvRegionOk : PoiEnv :=
  { geo := geoEnvKeysOnly, baiduNearby := .ok [], amapNearby := .ok [],
    baiduRegion := .ok [regionRecord], amapText := .ok [] }

/-- Witness for `searchFood_mixed_fallback`: a non-empty Baidu region result
is returned raw under the mixed strategy. -/
theorem searchFood_mixed_fallback_witness :
    determineSearchStrategy "foodstreet" = .mixed ∧
    searchFood poiEnvRegionOk "foodstreet" ["baidu", "amap"] = .ok [regionRecord] := by
  have hm : determineSearchStrategy "foodstreet" = .mixed := by decide
  exact ⟨hm, (searchFood_mixed_fallback poiEnvRegionOk "foodstreet" ["baidu", "amap"] hm).1
    [regionRecord] rfl (by simp)⟩

/-- What the coordinate fan-out returns in the mixed-gap environment. -/
def coordRecord : Restaurant :=
  { name := "兰州拉面", rating := 3, platforms := ["baidu_map"], source := "baidu_map" }

/-- What the Amap text search would contribute to the merged region path. -/
def textRecord : Restaurant :=
  { name := "蜀香园", rating := 5, platforms := ["amap"], source := "amap" }

/-- Baidu region search empty, Amap text search non-empty. -/
def poiEnvMixedGap : PoiEnv :=
  { geo := geoEnvKeysOnly, baiduNearby := .ok [coordRecord], amapNearby := .ok [],
    baiduRegion := .ok [], amapText := .ok [textRecord] }

/-- C9 counterexample: the merged, deduplicated region path would be non-empty
(`[textRecord]`, contributed by Amap), yet under the mixed strategy the code
falls back to the coordinate path and returns `[coordRecord]` — so the
fallback condition is the emptiness of the Baidu-only region result, not of
the merged, deduplicated region result. -/
theorem searchFood_mixed_counterexample :
    regionPath poiEnvMixedGap ["baidu", "amap"] = .ok [textRecord] ∧
    searchFood poiEnvMixedGap "foodstreet" ["baidu", "amap"] = .ok [coordRecord] ∧
    textRecord ≠ coordRecord := by
  refine ⟨rfl, rfl, by decide⟩

/-- Witness for `parseCoordinate_correct`: the matching string `"1.5, -2"`
parses to `{lat := 3/2, lng := -2}`, and both components of the non-matching
string `"abc"` default to `0`. -/
theorem parseCoordinate_correct_witness :
    parseCoordinate "1.5, -2" = ⟨3/2, -2⟩ ∧
    (parseCoordinate "abc").lat = 0 ∧ (parseCoordinate "abc").lng = 0 := by
  have d1 : digitsVal ['1'] = 1 := by decide
  have d5 : digitsVal ['5'] = 5 := by decide
  have d2 : digitsVal ['2'] = 2 := by decide
  have hv1 : numValue false ['1'] ['5'] = 3/2 := by
    simp [numValue, d1, d5]
    norm_num
  have hv2 : numValue true ['2'] [] = -2 := by
    simp [numValue, d2, digitsVal]
  have hc : coordMatch "1.5, -2".toList = some (3/2, -2) := by
    have hbase : coordMatch "1.5, -2".toList =
        some (numValue false ['1'] ['5'], numValue true ['2'] []) := rfl
    rw [hbase, hv1, hv2]
  exact ⟨(parseCoordinate_correct "1.5, -2").1 (3/2) (-2) hc,
    (parseCoordinate_correct "abc").2.1 rfl,
    (parseCoordinate_correct "abc").2.2 rfl⟩
